import Mathlib

/-!
Shallow embedding of the battery-cell dashboard `src/app.py`.

Numbers are modelled as rationals.  Python's `round(x, n)` is modelled by
`round2` / `round1` below (round to the nearest multiple of `1/100` resp.
`1/10`).  The session ledger `st.session_state.cells_data` — a Python dict
from cell key to a per-cell dict — is modelled as an association list
`Ledger := List (String × CellRecord)` preserving insertion order.

The random temperature draw `random.uniform(25, 40)` (line 104) is made
explicit: cell-creation takes the sequence of raw draws as an argument
`draws : ℕ → ℚ` (indexed by the 1-based cell position).
-/

namespace BatteryApp

/-- Python `round(q, 2)`: nearest multiple of `1/100`. -/
def round2 (q : ℚ) : ℚ := ((round (q * 100) : ℤ) : ℚ) / 100

/-- Python `round(q, 1)`: nearest multiple of `1/10`. -/
def round1 (q : ℚ) : ℚ := ((round (q * 10) : ℤ) : ℚ) / 10

/-- ASCII uppercase of one character, as Python `str.upper()` acts on the
ASCII strings this app handles. -/
def upperChar (c : Char) : Char :=
  if 97 ≤ c.toNat ∧ c.toNat ≤ 122 then Char.ofNat (c.toNat - 32) else c

/-- Python `cell_type.upper()` (src/app.py line 114) on ASCII strings. -/
def upperStr (s : String) : String := ⟨s.data.map upperChar⟩

/-- One per-cell record, with exactly the fields built by the
Generate Cells handler (src/app.py lines 107-115). -/
structure CellRecord where
  voltage : ℚ
  current : ℚ
  temp : ℚ
  capacity : ℚ
  min_voltage : ℚ
  max_voltage : ℚ
  type : String
deriving DecidableEq, Repr

/-- The session ledger: insertion-ordered mapping from cell key to record. -/
abbrev Ledger := List (String × CellRecord)

/-- Build one cell, mirroring src/app.py lines 99-115: `idx` is the 1-based
position, `cellType` the (already lowercased) chemistry string, `draw` the
raw `random.uniform(25, 40)` result. -/
def mkCell (idx : ℕ) (cellType : String) (draw : ℚ) : String × CellRecord :=
  ("cell_" ++ toString idx ++ "_" ++ cellType,
    { voltage := if cellType = "lfp" then 3.2 else 3.6
      current := 0.0
      temp := round1 draw
      capacity := round2 ((if cellType = "lfp" then (3.2 : ℚ) else 3.6) * 0.0)
      min_voltage := if cellType = "lfp" then 2.8 else 3.2
      max_voltage := if cellType = "lfp" then 3.6 else 4.0
      type := upperStr cellType })

/-- The `for idx, cell_type in enumerate(cell_types, start=1)` loop
(src/app.py line 98), with the running 1-based index made explicit. -/
def createCellsAux (idx : ℕ) (types : List String) (draws : ℕ → ℚ) : Ledger :=
  match types with
  | [] => []
  | t :: rest => mkCell idx t (draws idx) :: createCellsAux (idx + 1) rest draws

/-- The Generate Cells handler (src/app.py lines 94-117): builds a fresh
ledger from the list of selected chemistry strings.  The handler performs
no validation of its own. -/
def createCells (types : List String) (draws : ℕ → ℚ) : Ledger :=
  createCellsAux 1 types draws

/-- The per-cell update statements of the current-input loop
(src/app.py lines 175-177): store the new current and recompute
`capacity = round(voltage * current, 2)` from the record's stored voltage. -/
def updRec (r : CellRecord) (c : ℚ) : CellRecord :=
  { r with current := c, capacity := round2 (r.voltage * c) }

/-- Apply the per-cell update to the record stored under `cellId`,
leaving all other entries alone. -/
def writeCell (l : Ledger) (cellId : String) (c : ℚ) : Ledger :=
  l.map fun p => if p.1 = cellId then (p.1, updRec p.2 c) else p

/-- Python dict subscript on the ledger: the record stored under key `k`,
or `none` when the key is absent. -/
def lookupKey (l : Ledger) (k : String) : Option CellRecord :=
  match l with
  | [] => none
  | p :: rest => if p.1 = k then some p.2 else lookupKey rest k

/-- Updating one cell's current.  In src/app.py the dict subscript
`updated_data[cell_key]["voltage"]` (line 175) raises `KeyError` for an
absent key before anything is written, modelled by `none`; no range check
is performed on `c` anywhere in the update code. -/
def setCurrent (l : Ledger) (cellId : String) (c : ℚ) : Option Ledger :=
  match lookupKey l cellId with
  | none => none
  | some _ => some (writeCell l cellId c)

/-- The ledger contents reachable from `st.session_state.cells_data` after
the first `k` iterations of the tab-2 current-input loop (src/app.py lines
159-177).  `updated_data = st.session_state.cells_data.copy()` (line 157)
is a SHALLOW dict copy, so both names share the per-cell record dicts and
every per-cell write at lines 176-177 is immediately visible through the
session-state reference; `newCur key` is the widget value entered for
`key`. -/
def sessionViewAfter (l : Ledger) (newCur : String → ℚ) (k : ℕ) : Ledger :=
  ((l.map Prod.fst).take k).foldl (fun acc key => writeCell acc key (newCur key)) l

/-- Quick Stats (src/app.py line 186): `sum(cell["capacity"] ...)`. -/
def totalCapacity (l : Ledger) : ℚ := (l.map fun p => p.2.capacity).sum

/-- Quick Stats (src/app.py line 188): `sum(cell["current"] ...)`. -/
def totalCurrent (l : Ledger) : ℚ := (l.map fun p => p.2.current).sum

/-- Average temperature (src/app.py line 187), computed only inside the
`if st.session_state.cells_data:` guard (line 121): on an empty ledger no
value is ever produced. -/
def averageTemperature (l : Ledger) : Option ℚ :=
  if l.isEmpty then none
  else some ((l.map fun p => p.2.temp).sum / (l.length : ℚ))

/-- Cell distribution (src/app.py line 195): `sum(1 for cell ... if
cell["type"] == "LFP")`. -/
def lfpCount (l : Ledger) : ℕ := l.countP fun p => p.2.type == "LFP"

/-- Cell distribution (src/app.py line 196): `len(...) - lfp_count`. -/
def nmcCount (l : Ledger) : ℕ := l.length - lfpCount l

/-- The displayed chemistry-to-count mapping: (LFP count, NMC count). -/
def countByChemistry (l : Ledger) : ℕ × ℕ := (lfpCount l, nmcCount l)

/-- One row of the exported data table (src/app.py lines 290-295). -/
structure ExportRow where
  voltage : ℚ
  current : ℚ
  temp : ℚ
  capacity : ℚ
  min_voltage : ℚ
  max_voltage : ℚ
  type : String
deriving DecidableEq, Repr

/-- The tabular snapshot serialized by the Data Table tab: one row per
cell, keyed by the cell identifier, numeric fields rounded to 2 decimals
(`display_df.round(2)`, src/app.py line 294). -/
def exportLedger (l : Ledger) : List (String × ExportRow) :=
  l.map fun p =>
    (p.1,
      { voltage := round2 p.2.voltage
        current := round2 p.2.current
        temp := round2 p.2.temp
        capacity := round2 p.2.capacity
        min_voltage := round2 p.2.min_voltage
        max_voltage := round2 p.2.max_voltage
        type := p.2.type })

/-- A constant random source used by concrete witnesses. -/
def dConst (q : ℚ) : ℕ → ℚ := fun _ => q

/-! ## Helper lemmas -/

theorem createCellsAux_length (n : ℕ) (types : List String) (d : ℕ → ℚ) :
    (createCellsAux n types d).length = types.length := by
  induction types generalizing n with
  | nil => rfl
  | cons t rest ih => simp [createCellsAux, ih]

theorem createCells_length (types : List String) (d : ℕ → ℚ) :
    (createCells types d).length = types.length :=
  createCellsAux_length 1 types d

theorem createCellsAux_getElem (n i : ℕ) (types : List String) (d : ℕ → ℚ) :
    (createCellsAux n types d)[i]? =
      (types[i]?).map fun t => mkCell (n + i) t (d (n + i)) := by
  induction types generalizing n i with
  | nil => simp [createCellsAux]
  | cons t rest ih =>
    cases i with
    | zero => simp [createCellsAux]
    | succ j =>
      have e : n + (j + 1) = (n + 1) + j := by omega
      simp [createCellsAux, ih (n + 1) j, e]

theorem createCells_getElem (i : ℕ) (types : List String) (d : ℕ → ℚ) :
    (createCells types d)[i]? = (types[i]?).map fun t => mkCell (i + 1) t (d (i + 1)) := by
  have e : 1 + i = i + 1 := by omega
  simp [createCells, createCellsAux_getElem, e]

theorem getElem_writeCell (l : Ledger) (cid : String) (c : ℚ) (j : ℕ) :
    (writeCell l cid c)[j]? =
      (l[j]?).map fun p => if p.1 = cid then (p.1, updRec p.2 c) else p := by
  simp [writeCell]

theorem lookup_writeCell_self (l : Ledger) (cid : String) (c : ℚ) :
    lookupKey (writeCell l cid c) cid = (lookupKey l cid).map fun r => updRec r c := by
  induction l with
  | nil => rfl
  | cons p rest ih =>
    obtain ⟨k, v⟩ := p
    by_cases h : k = cid
    · subst h
      simp [writeCell, lookupKey]
    · simp only [writeCell, List.map_cons, if_neg h, lookupKey]
      simpa [writeCell] using ih

theorem lookup_writeCell_ne (l : Ledger) (cid k : String) (c : ℚ) (h : k ≠ cid) :
    lookupKey (writeCell l cid c) k = lookupKey l k := by
  induction l with
  | nil => rfl
  | cons p rest ih =>
    obtain ⟨k0, v⟩ := p
    by_cases h0 : k0 = cid
    · subst h0
      simp only [writeCell, List.map_cons, if_pos rfl, lookupKey]
      rw [if_neg (fun hkk => h hkk.symm), if_neg (fun hkk => h hkk.symm)]
      simpa [writeCell] using ih
    · simp only [writeCell, List.map_cons, if_neg h0, lookupKey]
      by_cases hkk : k0 = k
      · rw [if_pos hkk, if_pos hkk]
      · rw [if_neg hkk, if_neg hkk]
        simpa [writeCell] using ih

theorem setCurrent_eq_none_iff (l : Ledger) (cid : String) (c : ℚ) :
    setCurrent l cid c = none ↔ lookupKey l cid = none := by
  cases h : lookupKey l cid <;> simp [setCurrent, h]

theorem setCurrent_eq_some (l : Ledger) (cid : String) (c : ℚ) (r : CellRecord)
    (h : lookupKey l cid = some r) :
    setCurrent l cid c = some (writeCell l cid c) := by
  simp [setCurrent, h]

theorem map_sum_eq_fin_sum (l : Ledger) (f : String × CellRecord → ℚ) :
    (l.map f).sum = ∑ i : Fin l.length, f (l[i.1]) :=
  (Fin.sum_univ_get' l f).symm

theorem abs_round2_sub_le (q : ℚ) : |round2 q - q| ≤ 1 / 200 := by
  have h := abs_sub_round (q * 100)
  rw [abs_sub_comm] at h
  have h2 : round2 q - q = (((round (q * 100) : ℤ) : ℚ) - q * 100) / 100 := by
    rw [round2]; ring
  have h100 : |(100 : ℚ)| = 100 := by norm_num
  rw [h2, abs_div, h100]
  linarith

theorem round1_bounds {q : ℚ} (h1 : 25 ≤ q) (h2 : q ≤ 40) :
    25 ≤ round1 q ∧ round1 q ≤ 40 := by
  have e : round (q * 10) = ⌊q * 10 + 1 / 2⌋ := round_eq _
  have lo : (250 : ℤ) ≤ round (q * 10) := by
    rw [e]
    apply Int.le_floor.mpr
    push_cast
    linarith
  have hi : round (q * 10) ≤ 400 := by
    rw [e]
    have hle : (q * 10 + 1 / 2 : ℚ) ≤ 400 + 1 / 2 := by linarith
    calc ⌊(q * 10 + 1 / 2 : ℚ)⌋ ≤ ⌊(400 + 1 / 2 : ℚ)⌋ := Int.floor_mono hle
      _ = 400 := by norm_num
  have lo2 : (250 : ℚ) ≤ ((round (q * 10) : ℤ) : ℚ) := by exact_mod_cast lo
  have hi2 : ((round (q * 10) : ℤ) : ℚ) ≤ 400 := by exact_mod_cast hi
  rw [round1]
  constructor <;> linarith

theorem nmcCount_eq_countP (l : Ledger)
    (h : ∀ p ∈ l, p.2.type = "LFP" ∨ p.2.type = "NMC") :
    nmcCount l = l.countP fun p => p.2.type == "NMC" := by
  induction l with
  | nil => rfl
  | cons p rest ih =>
    have hrest : ∀ q ∈ rest, q.2.type = "LFP" ∨ q.2.type = "NMC" :=
      fun q hq => h q (List.mem_cons_of_mem p hq)
    have hcount := List.countP_le_length (p := fun p => p.2.type == "LFP") (l := rest)
    have ihr := ih hrest
    rcases h p (List.mem_cons_self p rest) with hp | hp
    · have e1 : (p.2.type == "LFP") = true := by rw [hp]; decide
      have e2 : (p.2.type == "NMC") = false := by rw [hp]; decide
      simp only [nmcCount, lfpCount, List.countP_cons, e1, e2, List.length_cons,
        if_true, if_false, Bool.false_eq_true] at ihr ⊢
      omega
    · have e1 : (p.2.type == "LFP") = false := by rw [hp]; decide
      have e2 : (p.2.type == "NMC") = true := by rw [hp]; decide
      simp only [nmcCount, lfpCount, List.countP_cons, e1, e2, List.length_cons,
        if_true, if_false, Bool.false_eq_true] at ihr ⊢
      omega

/-! ## Claim theorems -/

/-- Claim C1: for every ledger, every cell identifier present in it, and
every newCurrent in [0, 10], setCurrent replaces that record's current
with newCurrent and sets its capacity to round(voltage * newCurrent, 2),
where voltage is the record's stored voltage. -/
theorem setCurrent_sets_current_and_capacity
    (l : Ledger) (cid : String) (c : ℚ) (r : CellRecord)
    (hr : lookupKey l cid = some r) (h0 : 0 ≤ c) (h10 : c ≤ 10) :
    ∃ l2, setCurrent l cid c = some l2 ∧
      lookupKey l2 cid =
        some { r with current := c, capacity := round2 (r.voltage * c) } := by
  refine ⟨writeCell l cid c, setCurrent_eq_some l cid c r hr, ?_⟩
  rw [lookup_writeCell_self, hr]
  rfl

/-- Witness for C1: on the one-LFP ledger, setting current 2 yields
current 2 and capacity 6.4 (= round(3.2 * 2, 2)). -/
theorem setCurrent_sets_current_and_capacity_witness :
    ∃ l2, setCurrent (createCells ["lfp"] (dConst 30)) "cell_1_lfp" 2 = some l2 ∧
      lookupKey l2 "cell_1_lfp" =
        some { voltage := 3.2, current := 2, temp := 30, capacity := 6.4,
               min_voltage := 2.8, max_voltage := 3.6, type := "LFP" } := by
  have hk : ("cell_" ++ toString 1 ++ "_" ++ "lfp") = "cell_1_lfp" := by decide
  have hu : upperStr "lfp" = "LFP" := by decide
  have hr : lookupKey (createCells ["lfp"] (dConst 30)) "cell_1_lfp" =
      some { voltage := 3.2, current := 0, temp := 30, capacity := 0,
             min_voltage := 2.8, max_voltage := 3.6, type := "LFP" } := by
    norm_num [createCells, createCellsAux, mkCell, dConst, lookupKey,
      round1, round2, round_eq, hk, hu]
  obtain ⟨l2, h1, h2⟩ :=
    setCurrent_sets_current_and_capacity _ _ 2 _ hr (by norm_num) (by norm_num)
  refine ⟨l2, h1, ?_⟩
  rw [h2]
  norm_num [round2, round_eq]

/-- Claim C5: setCurrent with a present identifier and in-range current
leaves voltage, minVoltage, maxVoltage, temperature and chemistry of the
target record unchanged, and leaves every other record unchanged. -/
theorem setCurrent_frame_preservation
    (l : Ledger) (cid : String) (c : ℚ) (r : CellRecord)
    (hr : lookupKey l cid = some r) (h0 : 0 ≤ c) (h10 : c ≤ 10) :
    ∃ l2, setCurrent l cid c = some l2 ∧ l2.length = l.length ∧
      (∃ s, lookupKey l2 cid = some s ∧ s.voltage = r.voltage ∧
        s.min_voltage = r.min_voltage ∧ s.max_voltage = r.max_voltage ∧
        s.temp = r.temp ∧ s.type = r.type) ∧
      ∀ (j : ℕ) (p : String × CellRecord),
        l[j]? = some p → p.1 ≠ cid → l2[j]? = some p := by
  refine ⟨writeCell l cid c, setCurrent_eq_some l cid c r hr, ?_, ?_, ?_⟩
  · simp [writeCell]
  · refine ⟨updRec r c, ?_, rfl, rfl, rfl, rfl, rfl⟩
    rw [lookup_writeCell_self, hr]
    rfl
  · intro j p hp hne
    rw [getElem_writeCell, hp]
    simp [if_neg hne]

/-- Witness for C5: on the two-cell ledger, updating cell 1 keeps its
non-current fields and the whole second record unchanged. -/
theorem setCurrent_frame_preservation_witness :
    ∃ l2, setCurrent (createCells ["lfp", "nmc"] (dConst 30)) "cell_1_lfp" 2 = some l2 ∧
      l2.length = (createCells ["lfp", "nmc"] (dConst 30)).length ∧
      (∃ s, lookupKey l2 "cell_1_lfp" = some s ∧ s.voltage = 3.2 ∧
        s.min_voltage = 2.8 ∧ s.max_voltage = 3.6 ∧ s.temp = 30 ∧ s.type = "LFP") ∧
      ∀ (j : ℕ) (p : String × CellRecord),
        (createCells ["lfp", "nmc"] (dConst 30))[j]? = some p →
        p.1 ≠ "cell_1_lfp" → l2[j]? = some p := by
  have hk : ("cell_" ++ toString 1 ++ "_" ++ "lfp") = "cell_1_lfp" := by decide
  have hu : upperStr "lfp" = "LFP" := by decide
  have hr : lookupKey (createCells ["lfp", "nmc"] (dConst 30)) "cell_1_lfp" =
      some { voltage := 3.2, current := 0, temp := 30, capacity := 0,
             min_voltage := 2.8, max_voltage := 3.6, type := "LFP" } := by
    norm_num [createCells, createCellsAux, mkCell, dConst, lookupKey,
      round1, round2, round_eq, hk, hu]
  obtain ⟨l2, h1, h2, ⟨s, hs, e1, e2, e3, e4, e5⟩, h4⟩ :=
    setCurrent_frame_preservation _ _ 2 _ hr (by norm_num) (by norm_num)
  exact ⟨l2, h1, h2, ⟨s, hs, e1, e2, e3, e4, e5⟩, h4⟩

/-- Claim C8 as stated is refuted: the update code performs no range
check, so the out-of-range current -1 is accepted (producing a record
with current -1 and capacity -3.2) instead of failing with OutOfRange. -/
theorem setCurrent_accepts_out_of_range :
    setCurrent (createCells ["lfp"] (dConst 30)) "cell_1_lfp" (-1) =
      some [("cell_1_lfp",
        { voltage := 3.2, current := -1, temp := 30, capacity := -3.2,
          min_voltage := 2.8, max_voltage := 3.6, type := "LFP" })] := by
  have hk : ("cell_" ++ toString 1 ++ "_" ++ "lfp") = "cell_1_lfp" := by decide
  have hu : upperStr "lfp" = "LFP" := by decide
  norm_num [setCurrent, writeCell, updRec, createCells, createCellsAux, mkCell,
    dConst, lookupKey, round1, round2, round_eq, hk, hu]

/-- Claim C8 amended: the update fails (KeyError, no ledger produced)
exactly when the identifier is absent, and performs no range validation:
any newCurrent, in range or not, is accepted and stored with the
recomputed capacity.  The [0, 10] restriction is enforced upstream by the
number-input widget only. -/
theorem setCurrent_failure_iff_absent (l : Ledger) (cid : String) (c : ℚ) :
    (setCurrent l cid c = none ↔ lookupKey l cid = none) ∧
    ∀ r, lookupKey l cid = some r →
      ∃ l2, setCurrent l cid c = some l2 ∧
        lookupKey l2 cid =
          some { r with current := c, capacity := round2 (r.voltage * c) } := by
  refine ⟨setCurrent_eq_none_iff l cid c, ?_⟩
  intro r hr
  refine ⟨writeCell l cid c, setCurrent_eq_some l cid c r hr, ?_⟩
  rw [lookup_writeCell_self, hr]
  rfl

/-- Witness for the amended C8: an unknown id fails; the out-of-range
current 10.1 on a known id is accepted and stored. -/
theorem setCurrent_failure_iff_absent_witness :
    (setCurrent (createCells ["lfp"] (dConst 30)) "cell_9_nmc" 5 = none) ∧
    ∃ l2, setCurrent (createCells ["lfp"] (dConst 30)) "cell_1_lfp" 10.1 = some l2 ∧
      lookupKey l2 "cell_1_lfp" =
        some { voltage := 3.2, current := 10.1, temp := 30, capacity := 32.32,
               min_voltage := 2.8, max_voltage := 3.6, type := "LFP" } := by
  have hk : ("cell_" ++ toString 1 ++ "_" ++ "lfp") = "cell_1_lfp" := by decide
  have hu : upperStr "lfp" = "LFP" := by decide
  have habs : lookupKey (createCells ["lfp"] (dConst 30)) "cell_9_nmc" = none := by
    have hk9 : ("cell_" ++ toString 1 ++ "_" ++ "lfp") ≠ "cell_9_nmc" := by decide
    simp [createCells, createCellsAux, mkCell, dConst, lookupKey, hk9]
  have hr : lookupKey (createCells ["lfp"] (dConst 30)) "cell_1_lfp" =
      some { voltage := 3.2, current := 0, temp := 30, capacity := 0,
             min_voltage := 2.8, max_voltage := 3.6, type := "LFP" } := by
    norm_num [createCells, createCellsAux, mkCell, dConst, lookupKey,
      round1, round2, round_eq, hk, hu]
  constructor
  · exact ((setCurrent_failure_iff_absent (createCells ["lfp"] (dConst 30))
      "cell_9_nmc" 5).1).mpr habs
  · obtain ⟨l2, h1, h2⟩ :=
      (setCurrent_failure_iff_absent (createCells ["lfp"] (dConst 30))
        "cell_1_lfp" 10.1).2 _ hr
    refine ⟨l2, h1, ?_⟩
    rw [h2]
    norm_num [round2, round_eq]


/-- Claim C6: totalCapacity sums the records' capacities, totalCurrent
sums their currents, and countByChemistry maps LFP and NMC to the number
of records with exactly that chemistry (the ledger holds only the two
recognized chemistries). -/
theorem ledger_aggregates_spec (l : Ledger)
    (h : ∀ p ∈ l, p.2.type = "LFP" ∨ p.2.type = "NMC") :
    totalCapacity l = (∑ i : Fin l.length, (l[i.1]).2.capacity) ∧
    totalCurrent l = (∑ i : Fin l.length, (l[i.1]).2.current) ∧
    (countByChemistry l).1 = (l.countP fun p => p.2.type == "LFP") ∧
    (countByChemistry l).2 = (l.countP fun p => p.2.type == "NMC") :=
  ⟨map_sum_eq_fin_sum l _, map_sum_eq_fin_sum l _, rfl, nmcCount_eq_countP l h⟩

/-- Witness for C6 on the three-cell ledger (2 LFP, 1 NMC). -/
theorem ledger_aggregates_spec_witness :
    totalCapacity (createCells ["lfp", "nmc", "lfp"] (dConst 30)) =
      (∑ i : Fin (createCells ["lfp", "nmc", "lfp"] (dConst 30)).length,
        ((createCells ["lfp", "nmc", "lfp"] (dConst 30))[i.1]).2.capacity) ∧
    totalCurrent (createCells ["lfp", "nmc", "lfp"] (dConst 30)) =
      (∑ i : Fin (createCells ["lfp", "nmc", "lfp"] (dConst 30)).length,
        ((createCells ["lfp", "nmc", "lfp"] (dConst 30))[i.1]).2.current) ∧
    (countByChemistry (createCells ["lfp", "nmc", "lfp"] (dConst 30))).1 =
      ((createCells ["lfp", "nmc", "lfp"] (dConst 30)).countP
        fun p => p.2.type == "LFP") ∧
    (countByChemistry (createCells ["lfp", "nmc", "lfp"] (dConst 30))).2 =
      ((createCells ["lfp", "nmc", "lfp"] (dConst 30)).countP
        fun p => p.2.type == "NMC") := by
  apply ledger_aggregates_spec
  have hu1 : upperStr "lfp" = "LFP" := by decide
  have hu2 : upperStr "nmc" = "NMC" := by decide
  intro p hp
  simp only [createCells, createCellsAux, mkCell, dConst, List.mem_cons,
    List.mem_singleton, List.not_mem_nil, or_false] at hp
  rcases hp with hp | hp | hp <;> rw [hp] <;> simp [hu1, hu2]

/-- Claim C7: averageTemperature yields no value on the empty ledger, and
on a non-empty ledger yields the arithmetic mean of the temperatures. -/
theorem averageTemperature_spec (l : Ledger) :
    (l = [] → averageTemperature l = none) ∧
    (l ≠ [] → ∃ m, averageTemperature l = some m ∧
      m * l.length = ∑ i : Fin l.length, (l[i.1]).2.temp) := by
  constructor
  · intro h
    subst h
    rfl
  · intro h
    have hne : (l.length : ℚ) ≠ 0 := by
      have h0 : l.length ≠ 0 := fun hl => h (List.length_eq_zero.mp hl)
      exact_mod_cast h0
    refine ⟨(l.map fun p => p.2.temp).sum / (l.length : ℚ), ?_, ?_⟩
    · simp [averageTemperature, h]
    · rw [div_mul_cancel₀ _ hne, map_sum_eq_fin_sum]

/-- Witness for C7: the two-cell ledger has a mean temperature. -/
theorem averageTemperature_spec_witness :
    ∃ m, averageTemperature (createCells ["lfp", "nmc"] (dConst 30)) = some m ∧
      m * (createCells ["lfp", "nmc"] (dConst 30)).length =
        ∑ i : Fin (createCells ["lfp", "nmc"] (dConst 30)).length,
          ((createCells ["lfp", "nmc"] (dConst 30))[i.1]).2.temp :=
  (averageTemperature_spec (createCells ["lfp", "nmc"] (dConst 30))).2 (by decide)


/-- Claim C2: for a non-empty sequence of at most 12 recognized (lowercase)
chemistry selections and draws in [25, 40], createCells yields one record
per element in order; at 1-indexed position i+1 the key is
cell_(i+1)_(chemistry), the stored chemistry field is the uppercase form,
voltage/minVoltage/maxVoltage come from the fixed table, current and
capacity are 0, and the temperature lies in [25, 40] and is a multiple of
one tenth. -/
theorem createCells_record_spec (types : List String) (d : ℕ → ℚ) (i : ℕ)
    (hne : types ≠ []) (hlen : types.length ≤ 12)
    (hchem : ∀ t ∈ types, t = "lfp" ∨ t = "nmc")
    (hd : ∀ j, 25 ≤ d j ∧ d j ≤ 40)
    (hi : i < types.length) :
    (createCells types d).length = types.length ∧
    ∃ (t : String) (r : CellRecord), types[i]? = some t ∧
      (createCells types d)[i]? = some ("cell_" ++ toString (i + 1) ++ "_" ++ t, r) ∧
      (t = "lfp" → r.voltage = 3.2 ∧ r.min_voltage = 2.8 ∧ r.max_voltage = 3.6 ∧
        r.type = "LFP") ∧
      (t = "nmc" → r.voltage = 3.6 ∧ r.min_voltage = 3.2 ∧ r.max_voltage = 4.0 ∧
        r.type = "NMC") ∧
      r.current = 0 ∧ r.capacity = 0 ∧
      25 ≤ r.temp ∧ r.temp ≤ 40 ∧ ∃ z : ℤ, r.temp = (z : ℚ) / 10 := by
  refine ⟨createCells_length types d, ?_⟩
  have ht : types[i]? = some types[i] := List.getElem?_eq_getElem hi
  refine ⟨types[i], (mkCell (i + 1) types[i] (d (i + 1))).2, ht, ?_, ?_, ?_, ?_, ?_, ?_⟩
  · rw [createCells_getElem, ht]
    rfl
  · intro h
    have hu : upperStr "lfp" = "LFP" := by decide
    rw [h]
    simp [mkCell, hu]
  · intro h
    have hu : upperStr "nmc" = "NMC" := by decide
    have hne2 : ("nmc" : String) ≠ "lfp" := by decide
    rw [h]
    simp [mkCell, hu, hne2]
  · show (0.0 : ℚ) = 0
    norm_num
  · show round2 ((if types[i] = "lfp" then (3.2 : ℚ) else 3.6) * 0.0) = 0
    have e0 : ((if types[i] = "lfp" then (3.2 : ℚ) else 3.6) * 0.0) = 0 := by
      by_cases h : types[i] = "lfp"
      · rw [if_pos h]
        norm_num
      · rw [if_neg h]
        norm_num
    rw [e0]
    norm_num [round2, round_eq]
  · show 25 ≤ round1 (d (i + 1)) ∧ round1 (d (i + 1)) ≤ 40 ∧
      ∃ z : ℤ, round1 (d (i + 1)) = (z : ℚ) / 10
    obtain ⟨hlo, hhi⟩ := round1_bounds (hd (i + 1)).1 (hd (i + 1)).2
    exact ⟨hlo, hhi, round (d (i + 1) * 10), rfl⟩

/-- Witness for C2: the two-cell ledger ["lfp", "nmc"] at position 2. -/
theorem createCells_record_spec_witness :
    (createCells ["lfp", "nmc"] (dConst 30)).length = (["lfp", "nmc"] : List String).length ∧
    ∃ (t : String) (r : CellRecord), (["lfp", "nmc"] : List String)[1]? = some t ∧
      (createCells ["lfp", "nmc"] (dConst 30))[1]? =
        some ("cell_" ++ toString (1 + 1) ++ "_" ++ t, r) ∧
      (t = "lfp" → r.voltage = 3.2 ∧ r.min_voltage = 2.8 ∧ r.max_voltage = 3.6 ∧
        r.type = "LFP") ∧
      (t = "nmc" → r.voltage = 3.6 ∧ r.min_voltage = 3.2 ∧ r.max_voltage = 4.0 ∧
        r.type = "NMC") ∧
      r.current = 0 ∧ r.capacity = 0 ∧
      25 ≤ r.temp ∧ r.temp ≤ 40 ∧ ∃ z : ℤ, r.temp = (z : ℚ) / 10 :=
  createCells_record_spec ["lfp", "nmc"] (dConst 30) 1
    (by decide) (by decide) (by decide)
    (fun j => by norm_num [dConst]) (by decide)

/-- Claim C9 as stated is refuted: the Generate Cells handler performs no
validation and never fails with InvalidInput — an empty selection yields
the empty ledger, and the unrecognized chemistry string "xyz" yields a
record carrying the NMC constants instead of an error. -/
theorem createCells_accepts_invalid_input :
    createCells ([] : List String) (dConst 30) = [] ∧
    createCells ["xyz"] (dConst 30) =
      [("cell_1_xyz",
        { voltage := 3.6, current := 0, temp := 30, capacity := 0,
          min_voltage := 3.2, max_voltage := 4.0, type := "XYZ" })] := by
  constructor
  · rfl
  · have hk : ("cell_" ++ toString 1 ++ "_" ++ "xyz") = "cell_1_xyz" := by decide
    have hu : upperStr "xyz" = "XYZ" := by decide
    have hne : ("xyz" : String) ≠ "lfp" := by decide
    norm_num [createCells, createCellsAux, mkCell, dConst, round1, round2, round_eq,
      hk, hu, hne]

/-- Claim C9 amended: createCells is total — it builds one record per
element of any chemistry sequence (empty, oversized, or with unrecognized
elements), and every element other than "lfp" is given the NMC constants
with its uppercased string stored as the chemistry field; the 1-12 length
bound and the LFP/NMC restriction are enforced only by the upstream UI
widgets. -/
theorem createCells_never_fails (types : List String) (d : ℕ → ℚ) :
    (createCells types d).length = types.length ∧
    ∀ (i : ℕ) (t : String), types[i]? = some t → t ≠ "lfp" →
      ∃ (r : CellRecord), (createCells types d)[i]? =
          some ("cell_" ++ toString (i + 1) ++ "_" ++ t, r) ∧
        r.voltage = 3.6 ∧ r.min_voltage = 3.2 ∧ r.max_voltage = 4.0 ∧
        r.type = upperStr t := by
  refine ⟨createCells_length types d, ?_⟩
  intro i t ht hne
  refine ⟨(mkCell (i + 1) t (d (i + 1))).2, ?_, ?_, ?_, ?_, rfl⟩
  · rw [createCells_getElem, ht]
    rfl
  · simp [mkCell, hne]
  · simp [mkCell, hne]
  · simp [mkCell, hne]

/-- Witness for the amended C9: a 13-element selection containing an
unrecognized chemistry is processed in full. -/
theorem createCells_never_fails_witness :
    (createCells ["xyz", "lfp", "lfp", "lfp", "lfp", "lfp", "lfp", "lfp", "lfp",
        "lfp", "lfp", "lfp", "lfp"] (dConst 30)).length =
      (["xyz", "lfp", "lfp", "lfp", "lfp", "lfp", "lfp", "lfp", "lfp",
        "lfp", "lfp", "lfp", "lfp"] : List String).length ∧
    ∃ (r : CellRecord), (createCells ["xyz", "lfp", "lfp", "lfp", "lfp", "lfp",
        "lfp", "lfp", "lfp", "lfp", "lfp", "lfp", "lfp"] (dConst 30))[0]? =
        some ("cell_" ++ toString (0 + 1) ++ "_" ++ "xyz", r) ∧
      r.voltage = 3.6 ∧ r.min_voltage = 3.2 ∧ r.max_voltage = 4.0 ∧
      r.type = upperStr "xyz" := by
  have h := createCells_never_fails
    ["xyz", "lfp", "lfp", "lfp", "lfp", "lfp", "lfp", "lfp", "lfp",
      "lfp", "lfp", "lfp", "lfp"] (dConst 30)
  exact ⟨h.1, h.2 0 "xyz" (by decide) (by decide)⟩


/-- Claim C4 as stated is refuted: two runs of createCells on the same
chemistry input but different states of the random source produce
different ledgers, so createCells is not deterministic in its declared
input alone. -/
theorem createCells_unequal_on_different_draws :
    createCells ["lfp"] (dConst 25) ≠ createCells ["lfp"] (dConst 26) := by
  have h1 : (createCells ["lfp"] (dConst 25)).map (fun p => p.2.temp) = [(25 : ℚ)] := by
    norm_num [createCells, createCellsAux, mkCell, dConst, round1, round_eq]
  have h2 : (createCells ["lfp"] (dConst 26)).map (fun p => p.2.temp) = [(26 : ℚ)] := by
    norm_num [createCells, createCellsAux, mkCell, dConst, round1, round_eq]
  intro h
  rw [h, h2] at h1
  injection h1 with h3 _
  exact absurd h3 (by norm_num)

/-- Claim C4 amended: every operation is deterministic given its inputs
together with the random draws consumed; createCells depends on the draw
source only through each record's temperature — on equal chemistry
sequences, any two draw sources yield ledgers of equal length that agree
position by position on the key and on every field except possibly
temperature. -/
theorem createCells_draw_noninterference
    (types : List String) (d d1 : ℕ → ℚ) (i : ℕ) :
    (createCells types d).length = (createCells types d1).length ∧
    ((createCells types d)[i]?).map (fun p => p.1) =
      ((createCells types d1)[i]?).map (fun p => p.1) ∧
    ((createCells types d)[i]?).map
        (fun p => (p.2.voltage, p.2.current, p.2.capacity,
          p.2.min_voltage, p.2.max_voltage, p.2.type)) =
      ((createCells types d1)[i]?).map
        (fun p => (p.2.voltage, p.2.current, p.2.capacity,
          p.2.min_voltage, p.2.max_voltage, p.2.type)) := by
  refine ⟨by rw [createCells_length, createCells_length], ?_, ?_⟩
  · rw [createCells_getElem, createCells_getElem]
    cases types[i]? <;> rfl
  · rw [createCells_getElem, createCells_getElem]
    cases types[i]? <;> rfl

/-- Claim C3: evaluation of the batch-update loop at the failing input.
After the first iteration of the tab-2 loop on the two-cell ledger with
batch inputs 1 A for cell 1 and 2 A for cell 2, the ledger visible
through the session state (shared by the shallow dict copy) carries the
new current on cell 1 but still the old current on cell 2 — a partial
state distinct from both the original ledger and the fully updated one,
and reached before the Update All Currents commit ever runs. -/
theorem batch_update_partial_state_visible :
    (sessionViewAfter (createCells ["lfp", "lfp"] (dConst 30))
        (fun k => if k = "cell_1_lfp" then 1 else 2) 1).map
        (fun p => (p.1, p.2.current)) =
      [("cell_1_lfp", (1 : ℚ)), ("cell_2_lfp", (0 : ℚ))] ∧
    (createCells ["lfp", "lfp"] (dConst 30)).map (fun p => (p.1, p.2.current)) =
      [("cell_1_lfp", (0 : ℚ)), ("cell_2_lfp", (0 : ℚ))] ∧
    (sessionViewAfter (createCells ["lfp", "lfp"] (dConst 30))
        (fun k => if k = "cell_1_lfp" then 1 else 2) 2).map
        (fun p => (p.1, p.2.current)) =
      [("cell_1_lfp", (1 : ℚ)), ("cell_2_lfp", (2 : ℚ))] := by
  have hk1 : ("cell_" ++ toString 1 ++ "_" ++ "lfp") = "cell_1_lfp" := by decide
  have hk2 : ("cell_" ++ toString 2 ++ "_" ++ "lfp") = "cell_2_lfp" := by decide
  have hne : ("cell_2_lfp" : String) ≠ "cell_1_lfp" := by decide
  have hne2 : ("cell_1_lfp" : String) ≠ "cell_2_lfp" := by decide
  refine ⟨?_, ?_, ?_⟩ <;>
    norm_num [sessionViewAfter, writeCell, updRec, createCells, createCellsAux,
      mkCell, dConst, round1, round2, round_eq, hk1, hk2, hne, hne2]

/-- Claim C10: exporting the data table and reading the table back
recovers every cell's current, voltage and capacity to within 0.01 (the
only loss is the 2-decimal rounding applied to the displayed table). -/
theorem export_roundtrip_tolerance (l : Ledger) (i : ℕ) (k : String)
    (r : CellRecord) (h : l[i]? = some (k, r)) :
    ∃ e, (exportLedger l)[i]? = some (k, e) ∧
      |e.current - r.current| ≤ 1 / 100 ∧
      |e.voltage - r.voltage| ≤ 1 / 100 ∧
      |e.capacity - r.capacity| ≤ 1 / 100 := by
  have he : (exportLedger l)[i]? =
      some (k,
        { voltage := round2 r.voltage, current := round2 r.current,
          temp := round2 r.temp, capacity := round2 r.capacity,
          min_voltage := round2 r.min_voltage, max_voltage := round2 r.max_voltage,
          type := r.type }) := by
    simp [exportLedger, h]
  refine ⟨_, he, ?_, ?_, ?_⟩ <;>
    · show |round2 _ - _| ≤ (1 : ℚ) / 100
      have := abs_round2_sub_le
      linarith [abs_round2_sub_le r.current, abs_round2_sub_le r.voltage,
        abs_round2_sub_le r.capacity]

/-- Witness for C10: a one-cell ledger whose current 1/3 is not a
2-decimal value exports a row within the 0.01 tolerance. -/
theorem export_roundtrip_tolerance_witness :
    ∃ e, (exportLedger [("cell_1_lfp",
        { voltage := 3.2, current := 1 / 3, temp := 30, capacity := 1.07,
          min_voltage := 2.8, max_voltage := 3.6, type := "LFP" })])[0]? =
        some ("cell_1_lfp", e) ∧
      |e.current - (1 : ℚ) / 3| ≤ 1 / 100 ∧
      |e.voltage - (3.2 : ℚ)| ≤ 1 / 100 ∧
      |e.capacity - (1.07 : ℚ)| ≤ 1 / 100 := by
  obtain ⟨e, he, h1, h2, h3⟩ := export_roundtrip_tolerance
    [("cell_1_lfp",
      { voltage := 3.2, current := 1 / 3, temp := 30, capacity := 1.07,
        min_voltage := 2.8, max_voltage := 3.6, type := "LFP" })]
    0 "cell_1_lfp"
    { voltage := 3.2, current := 1 / 3, temp := 30, capacity := 1.07,
      min_voltage := 2.8, max_voltage := 3.6, type := "LFP" } rfl
  exact ⟨e, he, h1, h2, h3⟩

end BatteryApp



